import Mathlib

/-!
Shallow embedding of the unified MCP server (`lib/unified-mcp-server.ts`):
the tool registry, the authentication gate and the JSON-RPC request
dispatcher, together with theorems settling the specification's claims
about them.

Conventions of the embedding:
* JavaScript values reaching the dispatcher are modelled by the inductive
  `Json`; an absent (`undefined`) field is modelled as `Json.null`
  (the dispatcher only distinguishes the two through truthiness, where
  both are falsy).
* A JavaScript `Map` is modelled as an insertion-ordered association
  list: `set` overwrites in place when the key exists and appends
  otherwise, `values()` iterates in insertion order.
* A thrown `Error` is modelled as `Except.error` carrying the message;
  handlers have type `Json → InvocationContext → Except String Json`.
* JavaScript string primitives (`startsWith`, `substring`, `length`)
  are modelled over the underlying character list; JavaScript indexes
  UTF-16 code units while Lean counts code points, and the two agree on
  every string the claims touch.
-/

namespace MCP

/-- JavaScript `s.startsWith(pre)`. -/
def jsStartsWith (s pre : String) : Bool :=
  pre.data.isPrefixOf s.data

/-- JavaScript `s.substring(n)` — drop the first `n` characters. -/
def jsSubstring (s : String) (n : Nat) : String :=
  ⟨s.data.drop n⟩

/-- JavaScript `s.length`. -/
def jsLength (s : String) : Nat :=
  s.data.length

/-- JSON-ish runtime values (numbers restricted to integers; no claim
depends on fractional values). -/
inductive Json where
  | null
  | bool (b : Bool)
  | num (n : Int)
  | str (s : String)
  | arr (elems : List Json)
  | obj (fields : List (String × Json))
deriving Repr

/-- JavaScript truthiness of a value (`undefined`/`null`, `false`, `0`
and `""` are falsy; objects and arrays are truthy). -/
def Json.truthy : Json → Bool
  | .null => false
  | .bool b => b
  | .num n => n != 0
  | .str s => s != ""
  | .arr _ => true
  | .obj _ => true

/-- Property access `o[k]` on a runtime value: first binding of the key
in an object, `undefined` (modelled as `null`) otherwise. -/
def Json.getField : Json → String → Json
  | .obj fields, k => ((fields.find? (fun p => p.1 = k)).map Prod.snd).getD .null
  | _, _ => .null

mutual

/-- JavaScript string interpolation `${v}` of a value (arrays render as
their elements joined by commas, objects as `[object Object]`). -/
def Json.display : Json → String
  | .null => "null"
  | .bool b => if b then "true" else "false"
  | .num n => toString n
  | .str s => s
  | .arr xs => Json.displayList xs
  | .obj _ => "[object Object]"

/-- Interpolation of an array's elements, comma separated. -/
def Json.displayList : List Json → String
  | [] => ""
  | [x] => x.display
  | x :: xs => x.display ++ "," ++ Json.displayList xs

end

/-- `interface MCPTool` — an immutable tool descriptor. The optional
`outputSchema` field is never set by any registration in the repository
and is omitted. -/
structure MCPTool where
  name : String
  description : String
  inputSchema : Json
  category : String

/-- `interface MCPRequest` — the inbound JSON-RPC envelope. `id` and
`params` are optional in the source (`id?: string | number`,
`params?: any`); an absent field is `Json.null` here. `jsonrpc` is
typed `'2.0'` in the source but checked at runtime, so it is a plain
string here. -/
structure MCPRequest where
  jsonrpc : String
  id : Json
  method : String
  params : Json

/-- `interface MCPError` — JSON-RPC error object. -/
structure MCPError where
  code : Int
  message : String
  data : Option Json

/-- `interface MCPResponse` — the outbound JSON-RPC envelope with its
optional `result` and `error` fields. -/
structure MCPResponse where
  jsonrpc : String
  id : Json
  result : Option Json
  error : Option MCPError

/-- The slice of a `VercelRequest` the server reads: the HTTP method,
the `Authorization` header and the parsed JSON body. `xApiKey` models
the alternate `X-API-Key` header that the companion client sends; the
server never reads it, and carrying it lets theorems state that. -/
structure HttpRequest where
  method : String
  authorization : Option String
  xApiKey : Option String
  body : Option MCPRequest

/-- Credential kinds distinguished by `extractAuthFromRequest`. -/
inductive AuthType where
  | jwt
  | api_key
deriving Repr, DecidableEq

/-- The `{ type, credential }` record produced by
`extractAuthFromRequest`. -/
structure AuthInfo where
  type : AuthType
  credential : String

/-- The per-request context `{ auth, req }` passed to handlers. -/
structure InvocationContext where
  auth : AuthInfo
  req : HttpRequest

/-- A registered tool handler: `(params, context) => result`, failure
modelled as `Except.error` with the thrown message. -/
def ToolHandler : Type :=
  Json → InvocationContext → Except String Json

/-! ### Error codes (`MCP_ERRORS`) -/

namespace MCP_ERRORS

def PARSE_ERROR : Int := -32700

def INVALID_REQUEST : Int := -32600

def METHOD_NOT_FOUND : Int := -32601

def INVALID_PARAMS : Int := -32602

def INTERNAL_ERROR : Int := -32603

def SERVER_ERROR : Int := -32000

def AUTHENTICATION_ERROR : Int := -32001

def RATE_LIMIT_EXCEEDED : Int := -32002

end MCP_ERRORS

/-! ### JavaScript `Map` as an insertion-ordered association list -/

/-- `Map.prototype.set`: overwrite in place when the key is present,
append otherwise. -/
def jsMapSet {α : Type} (m : List (String × α)) (k : String) (v : α) :
    List (String × α) :=
  if m.any (fun p => p.1 = k) then
    m.map (fun p => if p.1 = k then (k, v) else p)
  else
    m ++ [(k, v)]

/-- `Map.prototype.get` with a string key. -/
def jsMapGet {α : Type} (m : List (String × α)) (k : String) : Option α :=
  (m.find? (fun p => p.1 = k)).map Prod.snd

/-- `Map.prototype.get` with an arbitrary runtime value as key, against
a map whose keys are strings (the registry only ever inserts string
keys): a non-string key never matches. -/
def jsMapGetJ {α : Type} (m : List (String × α)) (k : Json) : Option α :=
  match k with
  | .str s => jsMapGet m s
  | _ => none

/-! ### `class MCPToolRegistry` -/

/-- The registry's two name-keyed maps. -/
structure MCPToolRegistry where
  tools : List (String × MCPTool)
  handlers : List (String × ToolHandler)

/-- `new MCPToolRegistry()` — both maps empty. -/
def emptyRegistry : MCPToolRegistry :=
  { tools := [], handlers := [] }

/-- `registerTool(tool, handler)` — binds `tool.name` in both maps. -/
def registerTool (reg : MCPToolRegistry) (tool : MCPTool)
    (handler : ToolHandler) : MCPToolRegistry :=
  { tools := jsMapSet reg.tools tool.name tool
    handlers := jsMapSet reg.handlers tool.name handler }

/-- `getTool(name)`. The call site passes the raw `params.name` value,
so the key is a runtime value, not necessarily a string. -/
def getTool (reg : MCPToolRegistry) (name : Json) : Option MCPTool :=
  jsMapGetJ reg.tools name

/-- `getAllTools()` — `Array.from(this.tools.values())`, insertion
order. -/
def getAllTools (reg : MCPToolRegistry) : List MCPTool :=
  reg.tools.map Prod.snd

/-- `executeTool(name, params, context)` — throws
`Tool '<name>' not found` when no handler is bound, otherwise runs the
handler. -/
def executeTool (reg : MCPToolRegistry) (name : Json) (params : Json)
    (context : InvocationContext) : Except String Json :=
  match jsMapGetJ reg.handlers name with
  | none => .error ("Tool '" ++ name.display ++ "' not found")
  | some h => h params context

/-- `getToolsByCategory(category)` — exact-match filter over
`getAllTools()`. -/
def getToolsByCategory (reg : MCPToolRegistry) (category : String) :
    List MCPTool :=
  (reg.tools.map Prod.snd).filter (fun tool => tool.category = category)

/-! ### `class MCPAuthManager` -/

/-- `validateApiKey(apiKey)` — `!!(apiKey && apiKey.length > 10)`
(an empty string is falsy, and also fails the length test). -/
def validateApiKey (apiKey : String) : Bool :=
  jsLength apiKey > 10

/-- `validateJWT(token)` — `!!(token && token.startsWith('eyJ'))`
(an empty string is falsy, and also fails the prefix test). -/
def validateJWT (token : String) : Bool :=
  jsStartsWith token "eyJ"

/-- `extractAuthFromRequest(req)` — reads only the `Authorization`
header; a `Bearer ` token starting with `eyJ` is classified as a JWT,
any other `Bearer ` token as an API key; anything else yields no
credential. -/
def extractAuthFromRequest (req : HttpRequest) : Option AuthInfo :=
  match req.authorization with
  | none => none
  | some authHeader =>
    if jsStartsWith authHeader "Bearer " then
      let token := jsSubstring authHeader 7
      if jsStartsWith token "eyJ" then
        some { type := .jwt, credential := token }
      else
        some { type := .api_key, credential := token }
    else
      none

/-! ### `class UnifiedMCPServer` — dispatcher -/

/-- `createErrorResponse(id, code, message)` — the optional fourth
`data` argument is never supplied at any call site, so `data` is
`none`. -/
def createErrorResponse (id : Json) (code : Int) (message : String) :
    MCPResponse :=
  { jsonrpc := "2.0", id := id, result := none
    error := some { code := code, message := message, data := none } }

/-- The success envelope `{ jsonrpc: '2.0', id: request.id, result }`
built at the end of `processRequest`. -/
def successResponse (id : Json) (result : Json) : MCPResponse :=
  { jsonrpc := "2.0", id := id, result := some result, error := none }

/-- Serialization of a descriptor as it appears in `tools/list`
results. -/
def MCPTool.toJson (tool : MCPTool) : Json :=
  .obj [("name", .str tool.name), ("description", .str tool.description),
    ("inputSchema", tool.inputSchema), ("category", .str tool.category)]

/-- `handleInitialize()` — fixed protocol/capability/identity object. -/
def handleInitialize : Json :=
  .obj [("protocolVersion", .str "2024-11-05"),
    ("capabilities", .obj [("tools", .obj []), ("resources", .obj []),
      ("prompts", .obj [])]),
    ("serverInfo", .obj [("name", .str "unified-mcp-server"),
      ("version", .str "1.0.0"),
      ("description",
        .str "Unified MCP server with Supabase and MoneyPrinterTurbo capabilities")])]

/-- `handleListTools()` — `{ tools: this.registry.getAllTools() }`. -/
def handleListTools (reg : MCPToolRegistry) : Json :=
  .obj [("tools", .arr ((getAllTools reg).map MCPTool.toJson))]

/-- The message of the `TypeError` raised by
`const { name, arguments: args } = params` when `params` is absent
(`undefined`/`null`); the exact wording is runtime-dependent and no
claim depends on it. -/
def destructureFailureMessage : String :=
  "Cannot destructure property 'name' of 'params' as it is undefined."

/-- `handleCallTool(params, context)` — destructures `params`, throws
`Tool name is required` when `name` is falsy, `Tool '<name>' not found`
when the lookup misses, and otherwise delegates to
`executeTool`. -/
def handleCallTool (reg : MCPToolRegistry) (params : Json)
    (context : InvocationContext) : Except String Json :=
  match params with
  | .null => .error destructureFailureMessage
  | _ =>
    let name := params.getField "name"
    let args := params.getField "arguments"
    if !name.truthy then
      .error "Tool name is required"
    else
      match getTool reg name with
      | none => .error ("Tool '" ++ name.display ++ "' not found")
      | some _ => executeTool reg name args context

/-- The deduplicated category list
`[...new Set(tools.map(t => t.category))]`: a JavaScript `Set` keeps
the first occurrence of each element in insertion order. -/
def setDedup : List String → List String
  | [] => []
  | c :: rest => c :: setDedup (rest.filter (fun d => d != c))
termination_by l => l.length
decreasing_by
  simp only [List.length_cons]
  exact Nat.lt_succ_of_le (List.length_filter_le _ _)

/-- The distinct categories of a registry's tools, first-occurrence
order, as computed inside `handleGetCapabilities`. -/
def capabilityCategories (reg : MCPToolRegistry) : List String :=
  setDedup ((getAllTools reg).map MCPTool.category)

/-- One category's count inside `handleGetCapabilities`:
`this.registry.getToolsByCategory(cat).length`. -/
def categoryCount (reg : MCPToolRegistry) (category : String) : Nat :=
  (getToolsByCategory reg category).length

/-- `handleGetCapabilities()` — aggregate counts grouped by
category. -/
def handleGetCapabilities (reg : MCPToolRegistry) : Json :=
  .obj [("capabilities", .arr [.str "tools", .str "resources"]),
    ("tools", .obj [
      ("total", .num (Int.ofNat (getAllTools reg).length)),
      ("categories", .arr ((capabilityCategories reg).map (fun cat =>
        .obj [("name", .str cat),
          ("count", .num (Int.ofNat (categoryCount reg cat)))])))]),
    ("version", .str "1.0.0")]

/-- `processRequest(request, context)` — the `switch` on
`request.method`, with the surrounding `try/catch` that converts any
thrown failure into an `INTERNAL_ERROR` response carrying the thrown
message. -/
def processRequest (reg : MCPToolRegistry) (request : MCPRequest)
    (context : InvocationContext) : MCPResponse :=
  if request.method = "initialize" then
    successResponse request.id handleInitialize
  else if request.method = "tools/list" then
    successResponse request.id (handleListTools reg)
  else if request.method = "tools/call" then
    match handleCallTool reg request.params context with
    | .ok result => successResponse request.id result
    | .error msg =>
      createErrorResponse request.id MCP_ERRORS.INTERNAL_ERROR msg
  else if request.method = "server/capabilities" then
    successResponse request.id (handleGetCapabilities reg)
  else
    createErrorResponse request.id MCP_ERRORS.METHOD_NOT_FOUND
      ("Method not found: " ++ request.method)

/-- What the transport writes back: HTTP status, whether the permissive
CORS headers were set (`setCorsHeaders` runs before anything else), and
the body — empty (`res.end()`) or one JSON-RPC envelope. -/
inductive HttpBody where
  | empty
  | json (response : MCPResponse)

/-- The observable outcome of `handleRequest`. -/
structure HttpResponse where
  status : Nat
  corsHeaders : Bool
  body : HttpBody

/-- The ternary inside `handleRequest` choosing the validator by
credential kind:
`auth.type === 'jwt' ? validateJWT(...) : validateApiKey(...)`. -/
def authIsValid (auth : AuthInfo) : Bool :=
  match auth.type with
  | .jwt => validateJWT auth.credential
  | .api_key => validateApiKey auth.credential

/-- `handleRequest(req, res)` — CORS headers first, then the OPTIONS
short-circuit, the POST check, the two authentication checks, the
envelope check, and finally `processRequest`. -/
def handleRequest (reg : MCPToolRegistry) (req : HttpRequest) :
    HttpResponse :=
  if req.method = "OPTIONS" then
    ⟨200, true, .empty⟩
  else if req.method ≠ "POST" then
    ⟨405, true, .json (createErrorResponse (.str "method_not_allowed")
      MCP_ERRORS.INVALID_REQUEST "Method not allowed")⟩
  else
    match extractAuthFromRequest req with
    | none =>
      ⟨401, true, .json (createErrorResponse (.str "auth_required")
        MCP_ERRORS.AUTHENTICATION_ERROR "Authentication required")⟩
    | some auth =>
      if !authIsValid auth then
        ⟨401, true, .json (createErrorResponse (.str "auth_invalid")
          MCP_ERRORS.AUTHENTICATION_ERROR "Invalid credentials")⟩
      else
        match req.body with
        | none =>
          ⟨400, true, .json (createErrorResponse (.str "invalid_request")
            MCP_ERRORS.INVALID_REQUEST "Invalid JSON-RPC request")⟩
        | some mcpRequest =>
          if mcpRequest.jsonrpc ≠ "2.0" then
            ⟨400, true, .json (createErrorResponse (.str "invalid_request")
              MCP_ERRORS.INVALID_REQUEST "Invalid JSON-RPC request")⟩
          else
            ⟨200, true,
              .json (processRequest reg mcpRequest ⟨auth, req⟩)⟩

/-! ## Concrete fixtures

Requests and handlers used by witnesses and counterexamples. The bearer
key `test-api-key-123456789` is the default key of the repository's
integration tests; `invalid-key-123` is their "invalid" key. -/

/-- A vacuous handler used to populate registry fixtures (handler
bodies are external collaborators and never run in the claims). -/
def fixtureHandler : ToolHandler := fun _ _ => .ok .null

/-- Test scenario: `tools/call` on the unregistered name
`nonexistent_tool`, sent with a key the gate accepts. -/
def unknownToolRequest : HttpRequest :=
  ⟨"POST", some "Bearer test-api-key-123456789", none,
    some ⟨"2.0", .str "3", "tools/call",
      .obj [("name", .str "nonexistent_tool"), ("arguments", .obj [])]⟩⟩

/-- Test scenario: `tools/call` whose `params` object has no `name`
field. -/
def missingNameRequest : HttpRequest :=
  ⟨"POST", some "Bearer test-api-key-123456789", none,
    some ⟨"2.0", .str "5", "tools/call", .obj [("arguments", .obj [])]⟩⟩

/-- Test scenario: authenticated `POST` whose envelope carries
`jsonrpc: "1.0"` and `id: "7"`. -/
def wrongVersionRequest : HttpRequest :=
  ⟨"POST", some "Bearer test-api-key-123456789", none,
    some ⟨"1.0", .str "7", "tools/list", .obj []⟩⟩

/-- A registration phase as performed in `initializeTools`: fold
`registerTool` over (descriptor, handler) pairs starting from the
empty registry of the constructor. -/
def registerAll (items : List (MCPTool × ToolHandler)) : MCPToolRegistry :=
  items.foldl (fun reg item => registerTool reg item.1 item.2) emptyRegistry

/-- Registration fixture: first binding of the name `alpha`. -/
def toolAlphaOne : MCPTool :=
  ⟨"alpha", "first registration", .obj [], "database"⟩

/-- Registration fixture: a distinct name `beta`. -/
def toolBeta : MCPTool :=
  ⟨"beta", "unrelated tool", .obj [], "video_generation"⟩

/-- Registration fixture: second binding of the name `alpha`. -/
def toolAlphaTwo : MCPTool :=
  ⟨"alpha", "second registration", .obj [], "database"⟩

/-- A registration sequence that registers `alpha` twice. -/
def duplicateItems : List (MCPTool × ToolHandler) :=
  [(toolAlphaOne, fixtureHandler), (toolBeta, fixtureHandler),
    (toolAlphaTwo, fixtureHandler)]

/-! ## Claims -/

/-- C9: every OPTIONS request is answered with HTTP 200, an empty body
and the CORS headers set, whatever the Authorization header, the
alternate API-key header or the body contain — authentication and
envelope validation are bypassed entirely. -/
theorem options_preflight_bypasses_auth (reg : MCPToolRegistry)
    (auth xkey : Option String) (body : Option MCPRequest) :
    handleRequest reg ⟨"OPTIONS", auth, xkey, body⟩ = ⟨200, true, .empty⟩ :=
  rfl

/-- C10: when the Authorization header is present but does not begin
with `Bearer `, credential extraction yields no credential and the
dispatcher answers 401 with code -32001 and the message
`Authentication required`, for every registry, every value of the
alternate API-key header and every body. -/
theorem non_bearer_header_is_auth_required (reg : MCPToolRegistry)
    (header : String) (xkey : Option String) (body : Option MCPRequest)
    (hpre : jsStartsWith header "Bearer " = false) :
    extractAuthFromRequest ⟨"POST", some header, xkey, body⟩ = none ∧
    handleRequest reg ⟨"POST", some header, xkey, body⟩ =
      ⟨401, true, .json (createErrorResponse (.str "auth_required")
        MCP_ERRORS.AUTHENTICATION_ERROR "Authentication required")⟩ := by
  have hext : extractAuthFromRequest ⟨"POST", some header, xkey, body⟩ = none := by
    simp [extractAuthFromRequest, hpre]
  refine ⟨hext, ?_⟩
  simp [handleRequest, hext]

/-- C10 witness: the theorem instantiated at the `Basic`-scheme header
`Basic dXNlcjpwYXNz`. -/
theorem non_bearer_header_is_auth_required_witness :
    extractAuthFromRequest
        ⟨"POST", some "Basic dXNlcjpwYXNz", some "raw-key", none⟩ = none ∧
    handleRequest emptyRegistry
        ⟨"POST", some "Basic dXNlcjpwYXNz", some "raw-key", none⟩ =
      ⟨401, true, .json (createErrorResponse (.str "auth_required")
        MCP_ERRORS.AUTHENTICATION_ERROR "Authentication required")⟩ :=
  non_bearer_header_is_auth_required emptyRegistry "Basic dXNlcjpwYXNz"
    (some "raw-key") none rfl

/-- C3: the reference API-key validation accepts any key longer than
ten characters and consults no master key at all: the integration
tests' `invalid-key-123` (15 characters, below the specified
16-character minimum and equal to no configured master key) is
accepted, and the request is answered 200, not 401. -/
theorem short_non_master_key_accepted :
    validateApiKey "invalid-key-123" = true ∧
    jsLength "invalid-key-123" = 15 ∧
    handleRequest emptyRegistry
        ⟨"POST", some "Bearer invalid-key-123", none,
          some ⟨"2.0", .str "test-auth-2", "tools/list", .obj []⟩⟩ =
      ⟨200, true, .json (successResponse (.str "test-auth-2")
        (handleListTools emptyRegistry))⟩ :=
  ⟨rfl, rfl, rfl⟩

/-- C1: calling the unregistered tool `nonexistent_tool` yields HTTP
200, no `result`, and the message `Tool 'nonexistent_tool' not found` —
but under error code -32603 (INTERNAL_ERROR), not the claimed -32601
(METHOD_NOT_FOUND): the `Tool not found` throw is swallowed by
`processRequest`'s generic catch. -/
theorem unknown_tool_answered_with_internal_error :
    handleRequest emptyRegistry unknownToolRequest =
      ⟨200, true, .json (createErrorResponse (.str "3")
        MCP_ERRORS.INTERNAL_ERROR "Tool 'nonexistent_tool' not found")⟩ ∧
    MCP_ERRORS.INTERNAL_ERROR = -32603 ∧
    MCP_ERRORS.INTERNAL_ERROR ≠ MCP_ERRORS.METHOD_NOT_FOUND :=
  ⟨rfl, rfl, by decide⟩

/-- C2 counterexample: an authenticated `tools/call` whose params lack
`name` is answered with code -32603 (INTERNAL_ERROR) and message
`Tool name is required`, not with the claimed -32602
(INVALID_PARAMS). -/
theorem missing_name_not_invalid_params :
    handleRequest emptyRegistry missingNameRequest =
      ⟨200, true, .json (createErrorResponse (.str "5")
        MCP_ERRORS.INTERNAL_ERROR "Tool name is required")⟩ ∧
    MCP_ERRORS.INTERNAL_ERROR ≠ MCP_ERRORS.INVALID_PARAMS :=
  ⟨rfl, by decide⟩

/-- C2 (amended): for every authenticated POST with a valid envelope,
method `tools/call` and params present but with a falsy `name` (absent
or empty), the response is HTTP 200 carrying a JSON-RPC error with code
-32603 (INTERNAL_ERROR) and message `Tool name is required`. -/
theorem missing_name_yields_internal_error (reg : MCPToolRegistry)
    (req : HttpRequest) (auth : AuthInfo) (mcpRequest : MCPRequest)
    (hpost : req.method = "POST")
    (hauth : extractAuthFromRequest req = some auth)
    (hvalid : authIsValid auth = true)
    (hbody : req.body = some mcpRequest)
    (hver : mcpRequest.jsonrpc = "2.0")
    (hm : mcpRequest.method = "tools/call")
    (hpar : mcpRequest.params ≠ Json.null)
    (hname : (mcpRequest.params.getField "name").truthy = false) :
    handleRequest reg req =
      ⟨200, true, .json (createErrorResponse mcpRequest.id
        MCP_ERRORS.INTERNAL_ERROR "Tool name is required")⟩ := by
  have hcall : handleCallTool reg mcpRequest.params ⟨auth, req⟩ =
      .error "Tool name is required" := by
    unfold handleCallTool
    cases hp : mcpRequest.params with
    | null => exact absurd hp hpar
    | bool b => simp [hp ▸ hname]
    | num n => simp [hp ▸ hname]
    | str s => simp [hp ▸ hname]
    | arr elems => simp [hp ▸ hname]
    | obj fields => simp [hp ▸ hname]
  have hproc : processRequest reg mcpRequest ⟨auth, req⟩ =
      createErrorResponse mcpRequest.id
        MCP_ERRORS.INTERNAL_ERROR "Tool name is required" := by
    unfold processRequest
    rw [hm]
    simp [hcall]
  simp [handleRequest, hpost, hauth, hvalid, hbody, hver, hproc]

/-- C2 witness: the amended theorem applied to the concrete
`missingNameRequest`. -/
theorem missing_name_yields_internal_error_witness :
    handleRequest emptyRegistry missingNameRequest =
      ⟨200, true, .json (createErrorResponse (.str "5")
        MCP_ERRORS.INTERNAL_ERROR "Tool name is required")⟩ :=
  missing_name_yields_internal_error emptyRegistry missingNameRequest
    ⟨.api_key, "test-api-key-123456789"⟩
    ⟨"2.0", .str "5", "tools/call", .obj [("arguments", .obj [])]⟩
    rfl rfl rfl rfl rfl rfl (by simp) rfl

/-- C4 counterexample: an authenticated POST whose envelope has
`jsonrpc: "1.0"` and `id: "7"` is answered with the literal response id
`invalid_request`, not with the request's id. -/
theorem envelope_failure_id_not_echoed :
    (handleRequest emptyRegistry wrongVersionRequest).body =
      .json (createErrorResponse (.str "invalid_request")
        MCP_ERRORS.INVALID_REQUEST "Invalid JSON-RPC request") ∧
    Json.str "invalid_request" ≠ Json.str "7" :=
  ⟨rfl, by simp⟩

/-- C4 (amended): `processRequest` echoes the request id into the
response on every method, success and error paths alike; the full
dispatcher therefore echoes the id on every request that passes the
transport-level checks (POST, valid credential, `jsonrpc = "2.0"`),
while transport-level failures carry a fixed literal id instead. -/
theorem request_id_round_trip (reg : MCPToolRegistry) :
    (∀ request context, (processRequest reg request context).id = request.id) ∧
    (∀ req auth mcpRequest, req.method = "POST" →
      extractAuthFromRequest req = some auth → authIsValid auth = true →
      req.body = some mcpRequest → mcpRequest.jsonrpc = "2.0" →
      ∀ response, (handleRequest reg req).body = .json response →
        response.id = mcpRequest.id) := by
  have hproc : ∀ request context,
      (processRequest reg request context).id = request.id := by
    intro request context
    unfold processRequest
    split
    · rfl
    · split
      · rfl
      · split
        · split <;> rfl
        · split <;> rfl
  refine ⟨hproc, ?_⟩
  intro req auth mcpRequest hpost hauth hvalid hbody hver response hresp
  have hreq : handleRequest reg req =
      ⟨200, true, .json (processRequest reg mcpRequest ⟨auth, req⟩)⟩ := by
    simp [handleRequest, hpost, hauth, hvalid, hbody, hver]
  rw [hreq] at hresp
  cases hresp
  exact hproc mcpRequest ⟨auth, req⟩

/-- C4 witness: the round-trip theorem applied to the concrete
`unknownToolRequest` (an error path) and its envelope id `"3"`. -/
theorem request_id_round_trip_witness :
    (processRequest emptyRegistry
      ⟨"2.0", .str "3", "tools/call",
        .obj [("name", .str "nonexistent_tool"), ("arguments", .obj [])]⟩
      ⟨⟨.api_key, "test-api-key-123456789"⟩, unknownToolRequest⟩).id =
      Json.str "3" ∧
    (createErrorResponse (.str "3") MCP_ERRORS.INTERNAL_ERROR
        "Tool 'nonexistent_tool' not found").id = Json.str "3" :=
  ⟨(request_id_round_trip emptyRegistry).1
      ⟨"2.0", .str "3", "tools/call",
        .obj [("name", .str "nonexistent_tool"), ("arguments", .obj [])]⟩
      ⟨⟨.api_key, "test-api-key-123456789"⟩, unknownToolRequest⟩,
    (request_id_round_trip emptyRegistry).2 unknownToolRequest
      ⟨.api_key, "test-api-key-123456789"⟩
      ⟨"2.0", .str "3", "tools/call",
        .obj [("name", .str "nonexistent_tool"), ("arguments", .obj [])]⟩
      rfl rfl rfl rfl rfl _ rfl⟩

/-- C5: the dispatcher's checks apply in a fixed order with first
failure winning — non-POST (and non-OPTIONS) yields 405 with code
-32600 whatever the credential; an absent credential yields 401 with
code -32001 and `Authentication required`; a present-but-invalid
credential yields 401 with code -32001 and `Invalid credentials`; only
after auth passes is the envelope checked (400, code -32600 when
`jsonrpc` is not `"2.0"`), and only then is the method routed. -/
theorem handleRequest_validation_order (reg : MCPToolRegistry)
    (req : HttpRequest) :
    (req.method ≠ "OPTIONS" → req.method ≠ "POST" →
      handleRequest reg req =
        ⟨405, true, .json (createErrorResponse (.str "method_not_allowed")
          MCP_ERRORS.INVALID_REQUEST "Method not allowed")⟩) ∧
    (req.method = "POST" → extractAuthFromRequest req = none →
      handleRequest reg req =
        ⟨401, true, .json (createErrorResponse (.str "auth_required")
          MCP_ERRORS.AUTHENTICATION_ERROR "Authentication required")⟩) ∧
    (∀ auth, req.method = "POST" → extractAuthFromRequest req = some auth →
      authIsValid auth = false →
      handleRequest reg req =
        ⟨401, true, .json (createErrorResponse (.str "auth_invalid")
          MCP_ERRORS.AUTHENTICATION_ERROR "Invalid credentials")⟩) ∧
    (∀ auth mcpRequest, req.method = "POST" →
      extractAuthFromRequest req = some auth → authIsValid auth = true →
      req.body = some mcpRequest → mcpRequest.jsonrpc ≠ "2.0" →
      handleRequest reg req =
        ⟨400, true, .json (createErrorResponse (.str "invalid_request")
          MCP_ERRORS.INVALID_REQUEST "Invalid JSON-RPC request")⟩) ∧
    (∀ auth mcpRequest, req.method = "POST" →
      extractAuthFromRequest req = some auth → authIsValid auth = true →
      req.body = some mcpRequest → mcpRequest.jsonrpc = "2.0" →
      handleRequest reg req =
        ⟨200, true, .json (processRequest reg mcpRequest ⟨auth, req⟩)⟩) := by
  refine ⟨?_, ?_, ?_, ?_, ?_⟩
  · intro h1 h2
    simp [handleRequest, h1, h2]
  · intro h1 h2
    simp [handleRequest, h1, h2]
  · intro auth h1 h2 h3
    simp [handleRequest, h1, h2, h3]
  · intro auth mcpRequest h1 h2 h3 h4 h5
    simp [handleRequest, h1, h2, h3, h4, h5]
  · intro auth mcpRequest h1 h2 h3 h4 h5
    simp [handleRequest, h1, h2, h3, h4, h5]

/-- C5 witness: the five ordered outcomes at concrete requests — a GET
with valid credentials (405 wins over auth), a POST with no header, a
POST with the 5-character key `short`, a `jsonrpc: "1.0"` envelope and
a well-formed `tools/list` call. -/
theorem handleRequest_validation_order_witness :
    handleRequest emptyRegistry
        ⟨"GET", some "Bearer test-api-key-123456789", none, none⟩ =
      ⟨405, true, .json (createErrorResponse (.str "method_not_allowed")
        MCP_ERRORS.INVALID_REQUEST "Method not allowed")⟩ ∧
    handleRequest emptyRegistry ⟨"POST", none, none, none⟩ =
      ⟨401, true, .json (createErrorResponse (.str "auth_required")
        MCP_ERRORS.AUTHENTICATION_ERROR "Authentication required")⟩ ∧
    handleRequest emptyRegistry ⟨"POST", some "Bearer short", none, none⟩ =
      ⟨401, true, .json (createErrorResponse (.str "auth_invalid")
        MCP_ERRORS.AUTHENTICATION_ERROR "Invalid credentials")⟩ ∧
    handleRequest emptyRegistry wrongVersionRequest =
      ⟨400, true, .json (createErrorResponse (.str "invalid_request")
        MCP_ERRORS.INVALID_REQUEST "Invalid JSON-RPC request")⟩ ∧
    handleRequest emptyRegistry
        ⟨"POST", some "Bearer test-api-key-123456789", none,
          some ⟨"2.0", .str "1", "tools/list", .obj []⟩⟩ =
      ⟨200, true, .json (processRequest emptyRegistry
        ⟨"2.0", .str "1", "tools/list", .obj []⟩
        ⟨⟨.api_key, "test-api-key-123456789"⟩,
          ⟨"POST", some "Bearer test-api-key-123456789", none,
            some ⟨"2.0", .str "1", "tools/list", .obj []⟩⟩⟩)⟩ :=
  ⟨(handleRequest_validation_order emptyRegistry
      ⟨"GET", some "Bearer test-api-key-123456789", none, none⟩).1
      (by decide) (by decide),
    (handleRequest_validation_order emptyRegistry
      ⟨"POST", none, none, none⟩).2.1 rfl rfl,
    (handleRequest_validation_order emptyRegistry
      ⟨"POST", some "Bearer short", none, none⟩).2.2.1
      ⟨.api_key, "short"⟩ rfl rfl rfl,
    (handleRequest_validation_order emptyRegistry wrongVersionRequest).2.2.2.1
      ⟨.api_key, "test-api-key-123456789"⟩
      ⟨"1.0", .str "7", "tools/list", .obj []⟩
      rfl rfl rfl rfl (by decide),
    (handleRequest_validation_order emptyRegistry
      ⟨"POST", some "Bearer test-api-key-123456789", none,
        some ⟨"2.0", .str "1", "tools/list", .obj []⟩⟩).2.2.2.2
      ⟨.api_key, "test-api-key-123456789"⟩
      ⟨"2.0", .str "1", "tools/list", .obj []⟩
      rfl rfl rfl rfl rfl⟩

/-- Every `handleRequest` outcome is the empty preflight body, one
`createErrorResponse`, or the `processRequest` envelope. -/
theorem handleRequest_body_shape (reg : MCPToolRegistry)
    (req : HttpRequest) :
    (handleRequest reg req).body = .empty ∨
    (∃ i c m, (handleRequest reg req).body =
      .json (createErrorResponse i c m)) ∨
    (∃ mcpRequest context, (handleRequest reg req).body =
      .json (processRequest reg mcpRequest context)) := by
  unfold handleRequest
  split
  · exact Or.inl rfl
  · split
    · exact Or.inr (Or.inl ⟨_, _, _, rfl⟩)
    · split
      · exact Or.inr (Or.inl ⟨_, _, _, rfl⟩)
      · split
        · exact Or.inr (Or.inl ⟨_, _, _, rfl⟩)
        · split
          · exact Or.inr (Or.inl ⟨_, _, _, rfl⟩)
          · split
            · exact Or.inr (Or.inl ⟨_, _, _, rfl⟩)
            · exact Or.inr (Or.inr ⟨_, _, rfl⟩)

/-- Every `processRequest` envelope carries exactly one of `result`
and `error`. -/
theorem processRequest_result_xor_error (reg : MCPToolRegistry)
    (request : MCPRequest) (context : InvocationContext) :
    ((processRequest reg request context).result.isSome = true ∧
      (processRequest reg request context).error = none) ∨
    ((processRequest reg request context).result = none ∧
      (processRequest reg request context).error.isSome = true) := by
  unfold processRequest
  split
  · exact Or.inl ⟨rfl, rfl⟩
  · split
    · exact Or.inl ⟨rfl, rfl⟩
    · split
      · split
        · exact Or.inl ⟨rfl, rfl⟩
        · exact Or.inr ⟨rfl, rfl⟩
      · split
        · exact Or.inl ⟨rfl, rfl⟩
        · exact Or.inr ⟨rfl, rfl⟩

/-- C6: every JSON-RPC envelope the dispatcher emits carries exactly
one of `result` and `error` — success envelopes have a `result` and no
`error`, error envelopes an `error` and no `result`. -/
theorem response_carries_result_xor_error (reg : MCPToolRegistry)
    (req : HttpRequest) :
    ∀ response, (handleRequest reg req).body = .json response →
      (response.result.isSome = true ∧ response.error = none) ∨
      (response.result = none ∧ response.error.isSome = true) := by
  intro response hresp
  rcases handleRequest_body_shape reg req with h | ⟨i, c, m, h⟩ |
    ⟨mcpRequest, context, h⟩
  · rw [h] at hresp
    exact absurd hresp (by simp)
  · rw [h] at hresp
    simp only [HttpBody.json.injEq] at hresp
    subst hresp
    exact Or.inr ⟨rfl, rfl⟩
  · rw [h] at hresp
    simp only [HttpBody.json.injEq] at hresp
    subst hresp
    exact processRequest_result_xor_error reg mcpRequest context

/-- C6 witness: the exclusivity instance carried by the response to the
concrete `missing tool` scenario. -/
theorem response_carries_result_xor_error_witness :
    ((createErrorResponse (.str "3") MCP_ERRORS.INTERNAL_ERROR
        "Tool 'nonexistent_tool' not found").result.isSome = true ∧
      (createErrorResponse (.str "3") MCP_ERRORS.INTERNAL_ERROR
        "Tool 'nonexistent_tool' not found").error = none) ∨
    ((createErrorResponse (.str "3") MCP_ERRORS.INTERNAL_ERROR
        "Tool 'nonexistent_tool' not found").result = none ∧
      (createErrorResponse (.str "3") MCP_ERRORS.INTERNAL_ERROR
        "Tool 'nonexistent_tool' not found").error.isSome = true) :=
  response_carries_result_xor_error emptyRegistry unknownToolRequest
    (createErrorResponse (.str "3") MCP_ERRORS.INTERNAL_ERROR
      "Tool 'nonexistent_tool' not found") rfl

/-! ### Association-list lemmas for the JavaScript `Map` model -/

theorem find?_map_overwrite {α : Type} (m : List (String × α))
    (k : String) (v : α) :
    (m.map (fun p => if p.1 = k then (k, v) else p)).find?
        (fun p => p.1 = k) =
      if m.any (fun p => p.1 = k) then some (k, v) else none := by
  induction m with
  | nil => rfl
  | cons p t ih =>
    by_cases hp : p.1 = k
    · simp [hp, List.find?_cons, ih]
    · have hd : (decide (p.1 = k)) = false := by simp [hp]
      simp only [List.map_cons, List.find?_cons, List.any_cons, if_neg hp,
        hd, Bool.false_or, ih]

theorem find?_map_overwrite_ne {α : Type} (m : List (String × α))
    (k k' : String) (v : α) (hne : k' ≠ k) :
    (m.map (fun p => if p.1 = k then (k, v) else p)).find?
        (fun p => p.1 = k') =
      m.find? (fun p => p.1 = k') := by
  induction m with
  | nil => rfl
  | cons p t ih =>
    by_cases hp : p.1 = k
    · have : ¬ (k = k') := fun h => hne h.symm
      simp [hp, List.find?_cons, this, ih]
    · by_cases hp' : p.1 = k'
      · simp [hp, hp', List.find?_cons, hne]
      · simp [hp, hp', List.find?_cons, ih]

theorem jsMapGet_jsMapSet_self {α : Type} (m : List (String × α))
    (k : String) (v : α) : jsMapGet (jsMapSet m k v) k = some v := by
  unfold jsMapSet jsMapGet
  by_cases hany : m.any (fun p => p.1 = k) = true
  · rw [if_pos hany, find?_map_overwrite, if_pos hany]
    rfl
  · rw [if_neg hany, List.find?_append]
    have hnone : m.find? (fun p => decide (p.1 = k)) = none := by
      rw [List.find?_eq_none]
      intro x hx
      simp only [decide_eq_true_eq]
      intro hk
      exact hany (List.any_eq_true.2 ⟨x, hx, by simp [hk]⟩)
    simp [hnone]

theorem jsMapGet_jsMapSet_ne {α : Type} (m : List (String × α))
    (k k' : String) (v : α) (hne : k' ≠ k) :
    jsMapGet (jsMapSet m k v) k' = jsMapGet m k' := by
  unfold jsMapSet jsMapGet
  by_cases hany : m.any (fun p => p.1 = k) = true
  · rw [if_pos hany, find?_map_overwrite_ne m k k' v hne]
  · rw [if_neg hany, List.find?_append]
    have hkk : ¬ (k = k') := fun h => hne h.symm
    have hsingle : List.find? (fun p => decide (p.1 = k')) [(k, v)] = none := by
      simp [List.find?_cons, hkk]
    rw [hsingle]
    cases m.find? (fun p => decide (p.1 = k')) <;> rfl

theorem keys_jsMapSet {α : Type} (m : List (String × α)) (k : String) (v : α) :
    (jsMapSet m k v).map Prod.fst =
      if m.any (fun p => p.1 = k) then m.map Prod.fst
      else m.map Prod.fst ++ [k] := by
  unfold jsMapSet
  by_cases hany : m.any (fun p => p.1 = k) = true
  · rw [if_pos hany, if_pos hany, List.map_map]
    refine List.map_congr_left ?_
    intro p hp
    by_cases h : p.1 = k
    · simp [h]
    · simp [h]
  · rw [if_neg hany, if_neg hany]
    simp

theorem any_key_iff {α : Type} (m : List (String × α)) (k : String) :
    m.any (fun p => p.1 = k) = true ↔ k ∈ m.map Prod.fst := by
  simp [List.any_eq_true, List.mem_map]

theorem keys_nodup_jsMapSet {α : Type} (m : List (String × α)) (k : String)
    (v : α) (h : (m.map Prod.fst).Nodup) :
    ((jsMapSet m k v).map Prod.fst).Nodup := by
  rw [keys_jsMapSet]
  by_cases hany : m.any (fun p => p.1 = k) = true
  · rwa [if_pos hany]
  · rw [if_neg hany]
    have hk : k ∉ m.map Prod.fst := fun hm => hany ((any_key_iff m k).2 hm)
    simp [List.nodup_append, h, hk]

theorem mem_keys_jsMapSet {α : Type} (m : List (String × α)) (k : String)
    (v : α) (a : String) :
    a ∈ (jsMapSet m k v).map Prod.fst ↔ a ∈ m.map Prod.fst ∨ a = k := by
  rw [keys_jsMapSet]
  by_cases hany : m.any (fun p => p.1 = k) = true
  · rw [if_pos hany]
    have hk := (any_key_iff m k).1 hany
    constructor
    · exact Or.inl
    · rintro (h | rfl)
      · exact h
      · exact hk
  · rw [if_neg hany]
    simp

theorem entries_fst_jsMapSet {α : Type} (f : α → String)
    (m : List (String × α)) (k : String) (v : α)
    (hm : ∀ p ∈ m, p.1 = f p.2) (hv : k = f v) :
    ∀ p ∈ jsMapSet m k v, p.1 = f p.2 := by
  unfold jsMapSet
  by_cases hany : m.any (fun p => p.1 = k) = true
  · rw [if_pos hany]
    intro p hp
    rcases List.mem_map.1 hp with ⟨q, hq, rfl⟩
    by_cases h : q.1 = k
    · simp [h, hv]
    · simp only [if_neg h]
      exact hm q hq
  · rw [if_neg hany]
    intro p hp
    rcases List.mem_append.1 hp with h | h
    · exact hm p h
    · simp only [List.mem_singleton] at h
      subst h
      exact hv

theorem jsMapGet_of_mem {α : Type} (m : List (String × α)) (k : String)
    (v : α) (hnd : (m.map Prod.fst).Nodup) (hmem : (k, v) ∈ m) :
    jsMapGet m k = some v := by
  induction m with
  | nil => cases hmem
  | cons p t ih =>
    rw [List.map_cons, List.nodup_cons] at hnd
    rcases List.mem_cons.1 hmem with rfl | hmem'
    · simp [jsMapGet, List.find?_cons]
    · have hk : k ∈ t.map Prod.fst := List.mem_map.2 ⟨(k, v), hmem', rfl⟩
      have hp : ¬ (p.1 = k) := fun h => hnd.1 (h ▸ hk)
      have ih' := ih hnd.2 hmem'
      simp only [jsMapGet, List.find?_cons] at ih' ⊢
      simp [hp, ih']

theorem foldl_jsMapSet_lookup {ι β : Type} (key : ι → String) (val : ι → β) :
    ∀ (items : List ι) (m : List (String × β)) (n : String),
    jsMapGet (items.foldl (fun acc it => jsMapSet acc (key it) (val it)) m) n =
      ((items.reverse.find? (fun it => key it = n)).map val).or (jsMapGet m n) := by
  intro items
  induction items with
  | nil =>
    intro m n
    simp
  | cons it rest ih =>
    intro m n
    rw [List.foldl_cons, ih (jsMapSet m (key it) (val it)) n,
      List.reverse_cons, List.find?_append]
    cases hfind : rest.reverse.find? (fun i => decide (key i = n)) with
    | some x => simp [hfind]
    | none =>
      by_cases hn : key it = n
      · have h1 : List.find? (fun i => decide (key i = n)) [it] = some it := by
          simp [List.find?_cons, hn]
        rw [h1]
        subst hn
        simp [jsMapGet_jsMapSet_self]
      · have h1 : List.find? (fun i => decide (key i = n)) [it] = none := by
          simp [List.find?_cons, hn]
        rw [h1]
        have hne : n ≠ key it := fun h => hn h.symm
        simp [jsMapGet_jsMapSet_ne _ _ _ _ hne]

theorem foldl_jsMapSet_keys_nodup {ι β : Type} (key : ι → String)
    (val : ι → β) :
    ∀ (items : List ι) (m : List (String × β)),
      (m.map Prod.fst).Nodup →
      ((items.foldl (fun acc it => jsMapSet acc (key it) (val it)) m).map
        Prod.fst).Nodup := by
  intro items
  induction items with
  | nil => exact fun m h => h
  | cons it rest ih =>
    intro m h
    rw [List.foldl_cons]
    exact ih _ (keys_nodup_jsMapSet m (key it) (val it) h)

theorem foldl_jsMapSet_keys_mem {ι β : Type} (key : ι → String)
    (val : ι → β) :
    ∀ (items : List ι) (m : List (String × β)) (a : String),
      (a ∈ (items.foldl (fun acc it => jsMapSet acc (key it) (val it)) m).map
          Prod.fst ↔
        a ∈ m.map Prod.fst ∨ a ∈ items.map key) := by
  intro items
  induction items with
  | nil =>
    intro m a
    simp
  | cons it rest ih =>
    intro m a
    rw [List.foldl_cons, ih (jsMapSet m (key it) (val it)) a,
      mem_keys_jsMapSet, List.map_cons, List.mem_cons]
    tauto

theorem foldl_jsMapSet_entries {ι β : Type} (key : ι → String)
    (val : ι → β) (f : β → String) (hcompat : ∀ it, key it = f (val it)) :
    ∀ (items : List ι) (m : List (String × β)),
      (∀ p ∈ m, p.1 = f p.2) →
      ∀ p ∈ items.foldl (fun acc it => jsMapSet acc (key it) (val it)) m,
        p.1 = f p.2 := by
  intro items
  induction items with
  | nil => exact fun m h => h
  | cons it rest ih =>
    intro m h
    rw [List.foldl_cons]
    exact ih _ (entries_fst_jsMapSet f m (key it) (val it) h (hcompat it))

/-- The `tools` map of a registration fold evolves exactly as folding
`jsMapSet` keyed by the descriptor's name. -/
theorem foldl_register_tools (items : List (MCPTool × ToolHandler)) :
    ∀ reg : MCPToolRegistry,
      (items.foldl (fun reg item => registerTool reg item.1 item.2) reg).tools =
        items.foldl (fun acc it => jsMapSet acc it.1.name it.1) reg.tools := by
  induction items with
  | nil => exact fun reg => rfl
  | cons item rest ih =>
    intro reg
    rw [List.foldl_cons, List.foldl_cons]
    exact ih (registerTool reg item.1 item.2)

/-- The `handlers` map of a registration fold evolves exactly as
folding `jsMapSet` keyed by the descriptor's name. -/
theorem foldl_register_handlers (items : List (MCPTool × ToolHandler)) :
    ∀ reg : MCPToolRegistry,
      (items.foldl (fun reg item => registerTool reg item.1 item.2) reg).handlers =
        items.foldl (fun acc it => jsMapSet acc it.1.name it.2) reg.handlers := by
  induction items with
  | nil => exact fun reg => rfl
  | cons item rest ih =>
    intro reg
    rw [List.foldl_cons, List.foldl_cons]
    exact ih (registerTool reg item.1 item.2)

/-- C7: registration is last-write-wins — after any sequence of
`registerTool` calls the enumeration lists every distinct registered
name exactly once (so `tools/list` never lists a name twice), the
surviving descriptor and handler under a name are the ones from its
last registration, and the enumerated descriptor with a given name is
exactly that surviving descriptor. -/
theorem registration_last_write_wins (items : List (MCPTool × ToolHandler))
    (n : String) :
    ((getAllTools (registerAll items)).map MCPTool.name).Nodup ∧
    (n ∈ (getAllTools (registerAll items)).map MCPTool.name ↔
      n ∈ items.map (fun item => item.1.name)) ∧
    jsMapGet (registerAll items).tools n =
      (items.reverse.find? (fun item => item.1.name = n)).map
        (fun item => item.1) ∧
    jsMapGet (registerAll items).handlers n =
      (items.reverse.find? (fun item => item.1.name = n)).map
        (fun item => item.2) ∧
    (∀ tool, tool ∈ getAllTools (registerAll items) → tool.name = n →
      (items.reverse.find? (fun item => item.1.name = n)).map
        (fun item => item.1) = some tool) := by
  have htools : (registerAll items).tools =
      items.foldl (fun acc it => jsMapSet acc it.1.name it.1) [] :=
    foldl_register_tools items emptyRegistry
  have hhandlers : (registerAll items).handlers =
      items.foldl (fun acc it => jsMapSet acc it.1.name it.2) [] :=
    foldl_register_handlers items emptyRegistry
  have hinv : ∀ p ∈ (registerAll items).tools, p.1 = p.2.name := by
    rw [htools]
    refine foldl_jsMapSet_entries (fun it => it.1.name) (fun it => it.1)
      MCPTool.name (fun it => rfl) items [] ?_
    intro p hp
    cases hp
  have hnames : (getAllTools (registerAll items)).map MCPTool.name =
      (registerAll items).tools.map Prod.fst := by
    unfold getAllTools
    rw [List.map_map]
    refine List.map_congr_left ?_
    intro p hp
    simp only [Function.comp_apply]
    exact (hinv p hp).symm
  have hnodup : ((getAllTools (registerAll items)).map MCPTool.name).Nodup := by
    rw [hnames, htools]
    exact foldl_jsMapSet_keys_nodup (fun it => it.1.name) (fun it => it.1)
      items [] (by simp)
  have hlookT : jsMapGet (registerAll items).tools n =
      (items.reverse.find? (fun item => item.1.name = n)).map
        (fun item => item.1) := by
    rw [htools]
    rw [foldl_jsMapSet_lookup (fun it => it.1.name) (fun it => it.1) items [] n]
    simp [jsMapGet]
  refine ⟨hnodup, ?_, hlookT, ?_, ?_⟩
  · rw [hnames, htools]
    rw [foldl_jsMapSet_keys_mem (fun it => it.1.name) (fun it => it.1)
      items [] n]
    simp
  · rw [hhandlers]
    rw [foldl_jsMapSet_lookup (fun it => it.1.name) (fun it => it.2) items [] n]
    simp [jsMapGet]
  · intro tool htool hname
    rcases List.mem_map.1 htool with ⟨p, hp, hpt⟩
    have hkey : p.1 = n := by
      rw [hinv p hp, hpt, hname]
    have hpn : p = (n, tool) := by
      cases p
      cases hkey
      cases hpt
      rfl
    rw [← hlookT]
    refine jsMapGet_of_mem (registerAll items).tools n tool ?_ ?_
    · rw [← hnames]
      exact hnodup
    · rw [← hpn]
      exact hp

/-- C7 witness: registering `alpha`, `beta`, `alpha` again leaves one
`alpha` entry bound to the second registration. -/
theorem registration_last_write_wins_witness :
    jsMapGet (registerAll duplicateItems).tools "alpha" = some toolAlphaTwo ∧
    (duplicateItems.reverse.find? (fun item => item.1.name = "alpha")).map
      (fun item => item.1) = some toolAlphaTwo :=
  ⟨((registration_last_write_wins duplicateItems "alpha").2.2.1).trans rfl,
    (registration_last_write_wins duplicateItems "alpha").2.2.2.2 toolAlphaTwo
      (by exact List.mem_cons_self _ _) rfl⟩

/-! ### Lemmas about the category grouping -/

theorem mem_setDedup (l : List String) : ∀ a, a ∈ setDedup l ↔ a ∈ l := by
  induction l using setDedup.induct with
  | case1 => intro a; simp [setDedup]
  | case2 c rest ih =>
    intro a
    rw [setDedup]
    simp only [List.mem_cons, ih a, List.mem_filter, bne_iff_ne, ne_eq]
    constructor
    · rintro (rfl | ⟨h, _⟩)
      · exact Or.inl rfl
      · exact Or.inr h
    · rintro (rfl | h)
      · exact Or.inl rfl
      · by_cases hc : a = c
        · exact Or.inl hc
        · exact Or.inr ⟨h, hc⟩

theorem nodup_setDedup : ∀ l : List String, (setDedup l).Nodup := by
  intro l
  induction l using setDedup.induct with
  | case1 => simp [setDedup]
  | case2 c rest ih =>
    rw [setDedup]
    refine List.nodup_cons.2 ⟨?_, ih⟩
    intro hc
    have hmem := (mem_setDedup _ c).1 hc
    rw [List.mem_filter] at hmem
    simp at hmem

theorem countP_eq_add_filter_length (c : String) (l : List String) :
    l.countP (fun d => d = c) + (l.filter (fun d => d != c)).length = l.length := by
  induction l with
  | nil => rfl
  | cons d t ih =>
    rw [List.countP_cons, List.filter_cons]
    by_cases h : d = c
    · have h1 : (decide (d = c)) = true := by simp [h]
      have h2 : (d != c) = false := by simp [h]
      rw [h1, h2]
      simp only [if_true, Bool.false_eq_true, if_false, List.length_cons]
      omega
    · have h1 : (decide (d = c)) = false := by simp [h]
      have h2 : (d != c) = true := by simp [h]
      rw [h1, h2]
      simp only [Bool.false_eq_true, if_false, if_true, List.length_cons]
      omega

theorem sum_countP_setDedup : ∀ l : List String,
    ((setDedup l).map (fun c => l.countP (fun d => d = c))).sum = l.length := by
  intro l
  induction l using setDedup.induct with
  | case1 => simp [setDedup]
  | case2 c rest ih =>
    rw [setDedup, List.map_cons, List.sum_cons]
    have hmap : (setDedup (rest.filter (fun d => d != c))).map
        (fun x => (c :: rest).countP (fun d => d = x)) =
      (setDedup (rest.filter (fun d => d != c))).map
        (fun x => (rest.filter (fun d => d != c)).countP (fun d => d = x)) := by
      refine List.map_congr_left ?_
      intro x hx
      have hxmem := (mem_setDedup _ x).1 hx
      rw [List.mem_filter, bne_iff_ne] at hxmem
      have hxc : x ≠ c := hxmem.2
      have hcx : (decide (c = x)) = false := by
        simp only [decide_eq_false_iff_not]
        exact fun h => hxc h.symm
      rw [List.countP_cons, hcx]
      simp only [if_false, Bool.false_eq_true, add_zero]
      rw [List.countP_filter]
      refine List.countP_congr ?_
      intro d _
      by_cases hd : d = x
      · subst hd
        simp [hxc]
      · simp [hd]
    rw [hmap, ih]
    have hcc : (c :: rest).countP (fun d => d = c) =
        rest.countP (fun d => d = c) + 1 := by
      simp [List.countP_cons]
    rw [hcc]
    have := countP_eq_add_filter_length c rest
    simp only [List.length_cons]
    omega

theorem categoryCount_eq_countP (reg : MCPToolRegistry) (c : String) :
    categoryCount reg c =
      ((getAllTools reg).map MCPTool.category).countP (fun d => d = c) := by
  unfold categoryCount getToolsByCategory getAllTools
  rw [← List.countP_eq_length_filter, List.countP_map, List.map_map,
    List.countP_map]
  rfl

/-- C8: `server/capabilities` is derived by grouping the registry's
tool list — `tools.total` is the number of registered tools, the
categories list holds each distinct category exactly once, each
category's count is the number of descriptors with exactly that
category, and the counts over all categories sum to `tools.total`. -/
theorem capabilities_aggregate_by_category (reg : MCPToolRegistry)
    (c : String) :
    (capabilityCategories reg).Nodup ∧
    (c ∈ capabilityCategories reg ↔
      c ∈ (getAllTools reg).map MCPTool.category) ∧
    categoryCount reg c =
      ((getAllTools reg).filter (fun tool => tool.category = c)).length ∧
    ((capabilityCategories reg).map (categoryCount reg)).sum =
      (getAllTools reg).length ∧
    ((handleGetCapabilities reg).getField "tools").getField "total" =
      .num (Int.ofNat (getAllTools reg).length) ∧
    ((handleGetCapabilities reg).getField "tools").getField "categories" =
      .arr ((capabilityCategories reg).map (fun cat =>
        .obj [("name", .str cat),
          ("count", .num (Int.ofNat (categoryCount reg cat)))])) := by
  refine ⟨nodup_setDedup _, mem_setDedup _ c, rfl, ?_, rfl, rfl⟩
  have hpt : ∀ x, categoryCount reg x =
      ((getAllTools reg).map MCPTool.category).countP (fun d => d = x) :=
    categoryCount_eq_countP reg
  calc ((capabilityCategories reg).map (categoryCount reg)).sum
      = ((capabilityCategories reg).map (fun x =>
          ((getAllTools reg).map MCPTool.category).countP (fun d => d = x))).sum := by
        rw [List.map_congr_left (fun x _ => hpt x)]
    _ = ((getAllTools reg).map MCPTool.category).length :=
        sum_countP_setDedup _
    _ = (getAllTools reg).length := List.length_map _ _

end MCP
